import Mathlib

/-!
Verification of the YewChat client session core (`src/components/chat.rs`).

The development shallowly embeds the session state machine of the `Chat`
component: the wire codec (`serde_json::to_string` / `serde_json::from_str`
applied to `WebSocketMessage` and `MessageData`), the inbound frame handler
(`Chat::update`, `Msg::HandleMsg`), the submit pipeline
(`Msg::SubmitMessage`), and the creation handshake (`Chat::create`).

Conventions of the embedding:
* Rust strings are Lean `String` (both are sequences of Unicode scalar
  values).
* A Rust panic (`Option::unwrap` / `Result::unwrap` on a failing value) is
  modelled by `Option.none` in the result of the function that panics.
* The DOM input element is external to the component; its current value
  enters the model as an argument and its new value is returned.
* The outcome of `Sender::try_send` only feeds a debug log, so send
  attempts are recorded as the list of encoded frames handed to the
  transport, and the boolean send outcome is passed around to show that no
  state depends on it.
-/

namespace YewChat

/-- The three wire tags, from `enum MsgTypes` (serde `rename_all =
"lowercase"` gives the strings "users", "register", "message"). -/
inductive MsgTypes where
  | Users
  | Register
  | Message
deriving DecidableEq, Repr

/-- The wire frame, from `struct WebSocketMessage` (serde `rename_all =
"camelCase"` gives the keys "messageType", "dataArray", "data"). -/
structure WebSocketMessage where
  message_type : MsgTypes
  data_array : Option (List String)
  data : Option String
deriving DecidableEq, Repr

/-- The inner payload of a chat message, from `struct MessageData`.
Only `Deserialize` is derived in the source, so the model has a decoder
but no encoder for it.  `timestamp` is an `Option<i64>`. -/
structure MessageData where
  «from» : String
  message : String
  timestamp : Option Int
deriving DecidableEq, Repr

/-- A roster entry, from `struct UserProfile`. -/
structure UserProfile where
  name : String
  avatar : String
  online : Bool
deriving DecidableEq, Repr

/-- The session state owned by the `Chat` component: the fields of
`struct Chat` that carry session data.  The `NodeRef`, the websocket
handle and the event-bus bridge are external collaborators and are not
state of the embedding. -/
structure SessionState where
  users : List UserProfile
  messages : List MessageData
  username : String
  show_emoji_picker : Bool
deriving DecidableEq, Repr

/-! ## JSON values

`serde_json` parses inbound text into a JSON document and maps it onto the
Rust structs; encoding renders the struct as compact JSON.  The embedding
makes the document explicit as the type `Json` below, with a renderer
matching `serde_json::to_string` (no interior whitespace, lowercase hex in
escapes) and a parser matching the grammar `serde_json::from_str`
accepts.  Numbers are modelled as integers only: the single numeric field
of the schema is the `i64` timestamp, and a fractional or exponent form is
rejected by the `i64` deserializer just as it is here. -/

inductive Json where
  | null
  | bool (b : Bool)
  | num (n : Int)
  | str (s : String)
  | arr (elems : List Json)
  | obj (fields : List (String × Json))

/-- Lowercase hexadecimal digit, as in `serde_json`'s escape table. -/
def lowerHexDigit (n : Nat) : Char :=
  if n < 10 then Char.ofNat (48 + n) else Char.ofNat (87 + n)

/-- The escape `serde_json` applies to one character inside a JSON string:
quote and backslash get a two-character escape, the five short control
escapes are used where they exist, any other control character becomes
`\u00XX`, and everything else is emitted verbatim. -/
def escapeChar (c : Char) : List Char :=
  if c = '"' then ['\\', '"']
  else if c = '\\' then ['\\', '\\']
  else if c = '\x08' then ['\\', 'b']
  else if c = '\x0c' then ['\\', 'f']
  else if c = '\n' then ['\\', 'n']
  else if c = '\r' then ['\\', 'r']
  else if c = '\t' then ['\\', 't']
  else if c.toNat < 32 then
    '\\' :: 'u' :: '0' :: '0' :: lowerHexDigit (c.toNat / 16) :: lowerHexDigit (c.toNat % 16) :: []
  else [c]

def escapeList : List Char → List Char
  | [] => []
  | c :: cs => escapeChar c ++ escapeList cs

/-- Decimal rendering of the integer, as `serde_json` renders an `i64`. -/
def renderInt (n : Int) : List Char :=
  (toString n).data

mutual

/-- Compact JSON rendering, as produced by `serde_json::to_string`. -/
def renderChars : Json → List Char
  | .null => 'n' :: 'u' :: 'l' :: 'l' :: []
  | .bool true => 't' :: 'r' :: 'u' :: 'e' :: []
  | .bool false => 'f' :: 'a' :: 'l' :: 's' :: 'e' :: []
  | .num n => renderInt n
  | .str s => '"' :: (escapeList s.data ++ ['"'])
  | .arr xs => '[' :: (renderElems xs ++ [']'])
  | .obj fs => '\x7b' :: (renderFields fs ++ ['\x7d'])

def renderElems : List Json → List Char
  | [] => []
  | [x] => renderChars x
  | x :: xs => renderChars x ++ ',' :: renderElems xs

def renderFields : List (String × Json) → List Char
  | [] => []
  | [(k, v)] => '"' :: (escapeList k.data ++ '"' :: ':' :: renderChars v)
  | (k, v) :: fs =>
      ('"' :: (escapeList k.data ++ '"' :: ':' :: renderChars v)) ++ ',' :: renderFields fs

end

/-- JSON insignificant whitespace (the set `serde_json` skips). -/
def isJsonWs (c : Char) : Bool :=
  c = ' ' || c = '\t' || c = '\n' || c = '\r'

def skipWs : List Char → List Char
  | [] => []
  | c :: cs => if isJsonWs c then skipWs cs else c :: cs

def hexVal (c : Char) : Option Nat :=
  if '0' ≤ c ∧ c ≤ '9' then some (c.toNat - 48)
  else if 'a' ≤ c ∧ c ≤ 'f' then some (c.toNat - 87)
  else if 'A' ≤ c ∧ c ≤ 'F' then some (c.toNat - 55)
  else none

def hex4 (h1 h2 h3 h4 : Char) : Option Nat :=
  match hexVal h1, hexVal h2, hexVal h3, hexVal h4 with
  | some a, some b, some c, some d => some (((a * 16 + b) * 16 + c) * 16 + d)
  | _, _, _, _ => none

/-- The low half of a surrogate pair: a second `\uXXXX` escape in the
range `DC00`–`DFFF`, combined with the high half `n`. -/
def parseLowSurrogate (n : Nat) : List Char → Option (Char × List Char)
  | '\\' :: 'u' :: g1 :: g2 :: g3 :: g4 :: cs =>
    match hex4 g1 g2 g3 g4 with
    | none => none
    | some m =>
      if 0xdc00 ≤ m ∧ m ≤ 0xdfff then
        some (Char.ofNat (0x10000 + (n - 0xd800) * 0x400 + (m - 0xdc00)), cs)
      else none
  | _ => none

/-- A `\uXXXX` escape: four hex digits, combining surrogate pairs and
rejecting lone surrogates, as `serde_json` does. -/
def parseUnicodeEscape : List Char → Option (Char × List Char)
  | h1 :: h2 :: h3 :: h4 :: cs =>
    match hex4 h1 h2 h3 h4 with
    | none => none
    | some n =>
      if n < 0xd800 then some (Char.ofNat n, cs)
      else if n ≤ 0xdbff then parseLowSurrogate n cs
      else if n ≤ 0xdfff then none
      else some (Char.ofNat n, cs)
  | _ => none

/-- What follows a backslash inside a JSON string. -/
def parseEscapeChar : List Char → Option (Char × List Char)
  | [] => none
  | e :: cs =>
    if e = '"' then some ('"', cs)
    else if e = '\\' then some ('\\', cs)
    else if e = '/' then some ('/', cs)
    else if e = 'b' then some ('\x08', cs)
    else if e = 'f' then some ('\x0c', cs)
    else if e = 'n' then some ('\n', cs)
    else if e = 'r' then some ('\r', cs)
    else if e = 't' then some ('\t', cs)
    else if e = 'u' then parseUnicodeEscape cs
    else none

/-- Body of a JSON string after the opening quote: literal characters up
to the closing quote, with the standard escapes; raw control characters
are rejected.  Fuelled so the recursion is structural; every step
consumes at least one input character, so the wrapper's fuel of
`length + 1` never runs out. -/
def parseStringAux : Nat → List Char → Option (List Char × List Char)
  | 0, _ => none
  | fuel + 1, cs =>
    match cs with
    | [] => none
    | c :: cs1 =>
      if c = '"' then some ([], cs1)
      else if c = '\\' then
        match parseEscapeChar cs1 with
        | none => none
        | some (d, cs2) =>
          match parseStringAux fuel cs2 with
          | none => none
          | some p => some (d :: p.1, p.2)
      else if c.toNat < 32 then none
      else
        match parseStringAux fuel cs1 with
        | none => none
        | some p => some (c :: p.1, p.2)

def parseStringChars (cs : List Char) : Option (List Char × List Char) :=
  parseStringAux (cs.length + 1) cs

def digitVal (c : Char) : Option Nat :=
  if '0' ≤ c ∧ c ≤ '9' then some (c.toNat - 48) else none

def takeDigits : List Char → List Nat × List Char
  | [] => ([], [])
  | c :: cs =>
    match digitVal c with
    | some d => let p := takeDigits cs; (d :: p.1, p.2)
    | none => ([], c :: cs)

def natOfDigits (ds : List Nat) : Nat :=
  ds.foldl (fun a d => a * 10 + d) 0

/-- JSON integer literal: optional minus, digits with no superfluous
leading zero, rejected if a fraction or exponent follows (the schema's
only number is the `i64` timestamp, for which `serde_json`'s
deserializer rejects float forms). -/
def parseNumber (cs : List Char) : Option (Int × List Char) :=
  let p := match cs with
    | '-' :: r => (true, r)
    | _ => (false, cs)
  match takeDigits p.2 with
  | ([], _) => none
  | (d :: ds, r) =>
    if d = 0 ∧ ds ≠ [] then none
    else
      match r with
      | '.' :: _ => none
      | 'e' :: _ => none
      | 'E' :: _ => none
      | _ =>
        let n : Int := Int.ofNat (natOfDigits (d :: ds))
        some (if p.1 then -n else n, r)

/-- Expect the exact three characters of a keyword tail. -/
def expect3 (a b c : Char) : List Char → Option (List Char)
  | x :: y :: z :: r => if x = a ∧ y = b ∧ z = c then some r else none
  | _ => none

/-- Expect the exact four characters of a keyword tail. -/
def expect4 (a b c d : Char) : List Char → Option (List Char)
  | x :: y :: z :: w :: r => if x = a ∧ y = b ∧ z = c ∧ w = d then some r else none
  | _ => none

mutual

/-- Recursive-descent JSON value parser (fuelled; the fuel only has to
dominate the nesting and element count, and callers pass the input
length). -/
def parseJsonVal : Nat → List Char → Option (Json × List Char)
  | 0, _ => none
  | fuel + 1, cs =>
    match skipWs cs with
    | [] => none
    | c :: r =>
      if c = 'n' then (expect3 'u' 'l' 'l' r).map (fun r2 => (Json.null, r2))
      else if c = 't' then (expect3 'r' 'u' 'e' r).map (fun r2 => (Json.bool true, r2))
      else if c = 'f' then (expect4 'a' 'l' 's' 'e' r).map (fun r2 => (Json.bool false, r2))
      else if c = '"' then (parseStringChars r).map (fun p => (Json.str (String.mk p.1), p.2))
      else if c = '[' then
        match skipWs r with
        | ']' :: r2 => some (.arr [], r2)
        | r2 => (parseElems fuel r2).map (fun p => (.arr p.1, p.2))
      else if c = '\x7b' then
        match skipWs r with
        | '\x7d' :: r2 => some (.obj [], r2)
        | r2 => (parseFields fuel r2).map (fun p => (.obj p.1, p.2))
      else (parseNumber (c :: r)).map (fun p => (.num p.1, p.2))

def parseElems : Nat → List Char → Option (List Json × List Char)
  | 0, _ => none
  | fuel + 1, cs =>
    match parseJsonVal fuel cs with
    | none => none
    | some (v, r) =>
      match skipWs r with
      | ',' :: r2 =>
        match parseElems fuel r2 with
        | none => none
        | some (vs, r3) => some (v :: vs, r3)
      | ']' :: r2 => some ([v], r2)
      | _ => none

def parseFields : Nat → List Char → Option (List (String × Json) × List Char)
  | 0, _ => none
  | fuel + 1, cs =>
    match skipWs cs with
    | '"' :: r =>
      match parseStringChars r with
      | none => none
      | some (kcs, r2) =>
        match skipWs r2 with
        | ':' :: r3 =>
          match parseJsonVal fuel r3 with
          | none => none
          | some (v, r4) =>
            match skipWs r4 with
            | ',' :: r5 =>
              match parseFields fuel r5 with
              | none => none
              | some (fs, r6) => some ((String.mk kcs, v) :: fs, r6)
            | '\x7d' :: r5 => some ([(String.mk kcs, v)], r5)
            | _ => none
        | _ => none
    | _ => none

end

/-- Parse a whole document: one JSON value with nothing but whitespace
after it, as `serde_json::from_str` requires. -/
def parseJson (s : String) : Option Json :=
  match parseJsonVal (s.data.length + 1) s.data with
  | none => none
  | some (j, rest) => if skipWs rest = [] then some j else none

/-! ## The wire codec

Encoding is `serde_json::to_string::<WebSocketMessage>`: the fields are
rendered in declaration order under their camelCase names, `None` becomes
`null`.  Decoding is `serde_json::from_str`: parse a JSON document, then
map it onto the struct — unknown keys are ignored, a duplicate key is an
error, a missing `Option` field is `None`, a missing required field is an
error. -/

/-- Decode errors of the codec (`serde_json::Error` in the source): the
text is not a JSON document at all, or the document does not fit the
struct. -/
inductive ProtocolError where
  | malformed
  | schemaViolation
deriving DecidableEq, Repr

def jsonOfMsgTypes : MsgTypes → Json
  | .Users => .str "users"
  | .Register => .str "register"
  | .Message => .str "message"

def jsonOfWire (m : WebSocketMessage) : Json :=
  .obj [("messageType", jsonOfMsgTypes m.message_type),
        ("dataArray",
          match m.data_array with
          | none => .null
          | some ss => .arr (ss.map .str)),
        ("data",
          match m.data with
          | none => .null
          | some s => .str s)]

/-- `serde_json::to_string(&message)` for a `WebSocketMessage`. -/
def encodeWire (m : WebSocketMessage) : String :=
  String.mk (renderChars (jsonOfWire m))

def msgTypesFromJson : Json → Option MsgTypes
  | .str s =>
    if s = "users" then some .Users
    else if s = "register" then some .Register
    else if s = "message" then some .Message
    else none
  | _ => none

def strsFromJson : List Json → Option (List String)
  | [] => some []
  | .str s :: js => (strsFromJson js).map (fun ss => s :: ss)
  | _ :: _ => none

/-- Gather the three known fields of a `WebSocketMessage` object in one
pass: a duplicate of a known key is an error, unknown keys are skipped. -/
def collectWireFields :
    List (String × Json) → Option Json → Option Json → Option Json →
    Option (Option Json × Option Json × Option Json)
  | [], mt, da, d => some (mt, da, d)
  | (k, v) :: fs, mt, da, d =>
    if k = "messageType" then
      match mt with
      | some _ => none
      | none => collectWireFields fs (some v) da d
    else if k = "dataArray" then
      match da with
      | some _ => none
      | none => collectWireFields fs mt (some v) d
    else if k = "data" then
      match d with
      | some _ => none
      | none => collectWireFields fs mt da (some v)
    else collectWireFields fs mt da d

def wireFromJson : Json → Option WebSocketMessage
  | .obj fields =>
    match collectWireFields fields none none none with
    | none => none
    | some (mtF, daF, dF) =>
      match mtF with
      | none => none
      | some mtJ =>
        match msgTypesFromJson mtJ with
        | none => none
        | some mt =>
          match
            (match daF with
             | none => some none
             | some .null => some none
             | some (.arr js) => (strsFromJson js).map some
             | some _ => none : Option (Option (List String)))
          with
          | none => none
          | some da =>
            match
              (match dF with
               | none => some none
               | some .null => some none
               | some (.str s) => some (some s)
               | some _ => none : Option (Option String))
            with
            | none => none
            | some d => some ⟨mt, da, d⟩
  | _ => none

/-- `serde_json::from_str::<WebSocketMessage>(&s)` (line 96 of the
source). -/
def decodeWire (s : String) : Except ProtocolError WebSocketMessage :=
  match parseJsonVal (s.data.length + 1) s.data with
  | none => .error .malformed
  | some (j, rest) =>
    if skipWs rest = [] then
      match wireFromJson j with
      | some m => .ok m
      | none => .error .schemaViolation
    else .error .malformed

/-- The `i64` range check `serde_json` applies when deserializing the
timestamp. -/
def fitsI64 (n : Int) : Bool :=
  decide (-(2 ^ 63) ≤ n) && decide (n < 2 ^ 63)

def collectMsgFields :
    List (String × Json) → Option Json → Option Json → Option Json →
    Option (Option Json × Option Json × Option Json)
  | [], f, m, t => some (f, m, t)
  | (k, v) :: fs, f, m, t =>
    if k = "from" then
      match f with
      | some _ => none
      | none => collectMsgFields fs (some v) m t
    else if k = "message" then
      match m with
      | some _ => none
      | none => collectMsgFields fs f (some v) t
    else if k = "timestamp" then
      match t with
      | some _ => none
      | none => collectMsgFields fs f m (some v)
    else collectMsgFields fs f m t

def messageDataFromJson : Json → Option MessageData
  | .obj fields =>
    match collectMsgFields fields none none none with
    | none => none
    | some (fF, mF, tF) =>
      match fF, mF with
      | some (.str fromS), some (.str msgS) =>
        match
          (match tF with
           | none => some none
           | some .null => some none
           | some (.num n) => if fitsI64 n then some (some n) else none
           | some _ => none : Option (Option Int))
        with
        | none => none
        | some ts => some ⟨fromS, msgS, ts⟩
      | _, _ => none
  | _ => none

/-- `serde_json::from_str::<MessageData>(&data)` (line 115 of the
source). -/
def decodeMessageData (s : String) : Except ProtocolError MessageData :=
  match parseJsonVal (s.data.length + 1) s.data with
  | none => .error .malformed
  | some (j, rest) =>
    if skipWs rest = [] then
      match messageDataFromJson j with
      | some md => .ok md
      | none => .error .schemaViolation
    else .error .malformed

/-! ## The session state machine -/

/-- The dicebear avatar template from the `Users` handler. -/
def avatarUrl (u : String) : String :=
  "https://avatars.dicebear.com/api/adventurer-neutral/" ++ u ++ ".svg"

/-- The roster entry synthesized for one participant name. -/
def userProfileOf (u : String) : UserProfile :=
  { name := u, avatar := avatarUrl u, online := true }

/-- The frame dispatch of `Msg::HandleMsg` after the decode succeeded
(the `match msg.message_type` of lines 97–135).  `none` models the
panics inside the `Message` arm (`msg.data.unwrap()` and the
`from_str(..).unwrap()` on the inner payload); the `Bool` is the
re-render flag the handler returns. -/
def applyFrame (st : SessionState) (msg : WebSocketMessage) :
    Option (SessionState × Bool) :=
  match msg.message_type with
  | .Users =>
    let users_from_message := msg.data_array.getD []
    some ({ st with users := users_from_message.map userProfileOf }, true)
  | .Message =>
    match msg.data with
    | none => none
    | some d =>
      match decodeMessageData d with
      | .error _ => none
      | .ok message_data => some ({ st with messages := st.messages ++ [message_data] }, true)
  | .Register => some (st, false)

/-- The whole `Msg::HandleMsg(s)` arm: decode the raw text (the `unwrap`
on line 96 — `none` models the panic on a decode error), then
dispatch. -/
def handleMsg (st : SessionState) (s : String) : Option (SessionState × Bool) :=
  match decodeWire s with
  | .error _ => none
  | .ok msg => applyFrame st msg

/-- Rust `char::is_whitespace`: the Unicode `White_Space` property. -/
def isRustWhitespace (c : Char) : Bool :=
  [0x09, 0x0a, 0x0b, 0x0c, 0x0d, 0x20, 0x85, 0xa0, 0x1680, 0x2028, 0x2029,
    0x202f, 0x205f, 0x3000].contains c.toNat
  || (decide (0x2000 ≤ c.toNat) && decide (c.toNat ≤ 0x200a))

/-- Rust `str::trim`. -/
def rustTrim (s : String) : String :=
  String.mk (((s.data.dropWhile isRustWhitespace).reverse.dropWhile isRustWhitespace).reverse)

/-- The `Msg::SubmitMessage` arm (lines 137–154), given the current value
of the input element.  Returns the encoded frames handed to
`wss.tx.try_send` and the new value of the input element.  `sendOk` is
the outcome of `try_send`; the source only logs it (line 148), so no
component of the result may depend on it. -/
def submitMessage (inputValue : String) (sendOk : Bool) : List String × String :=
  if rustTrim inputValue = "" then ([], inputValue)
  else
    ([encodeWire { message_type := .Message, data_array := none, data := some inputValue }], "")

/-- `Chat::create` (lines 61–91): the initial state, and the frames
handed to the transport during creation.  `sendOk` is the outcome of the
`try_send` of the register frame; the source only logs it (line 78). -/
def createSession (username : String) (sendOk : Bool) : SessionState × List String :=
  ({ users := [], messages := [], username := username, show_emoji_picker := false },
   [encodeWire { message_type := .Register, data_array := none, data := some username }])

/-- The discrete events driving the session after creation. -/
inductive Event where
  | inbound (raw : String)
  | submit (inputValue : String) (sendOk : Bool)
  | keyPress (key : String) (shiftKey : Bool) (inputValue : String) (sendOk : Bool)
  | toggleEmojiPicker
  | insertEmoji (glyph : String)

/-- One step of `Chat::update`, restricted to session state and outbound
frames.  `none` models a panic (only the inbound path can panic). -/
def stepEvent (st : SessionState) (e : Event) : Option SessionState × List String :=
  match e with
  | .inbound raw =>
    match handleMsg st raw with
    | none => (none, [])
    | some (st2, _) => (some st2, [])
  | .submit v sendOk => (some st, (submitMessage v sendOk).1)
  | .keyPress key shiftKey v sendOk =>
    if key = "Enter" && !shiftKey then (some st, (submitMessage v sendOk).1)
    else (some st, [])
  | .toggleEmojiPicker => (some { st with show_emoji_picker := !st.show_emoji_picker }, [])
  | .insertEmoji _ => (some { st with show_emoji_picker := false }, [])

/-- Run a list of events; a panic stops the session, later events produce
nothing. -/
def runEvents : Option SessionState → List Event → Option SessionState × List String
  | st?, [] => (st?, [])
  | none, _ => (none, [])
  | some st, e :: es =>
    let p := stepEvent st e
    let q := runEvents p.1 es
    (q.1, p.2 ++ q.2)

/-- A whole session: creation followed by the given events.  The second
component is every frame handed to the transport, in order. -/
def sessionTrace (username : String) (sendOk : Bool) (events : List Event) :
    Option SessionState × List String :=
  let c := createSession username sendOk
  let r := runEvents (some c.1) events
  (r.1, c.2 ++ r.2)

/-! ## Round trip of the codec

The encoder emits no insignificant whitespace, the keys are fixed
literals, and the values are null, strings, or arrays of strings; the
lemmas below walk the parser over exactly these shapes. -/

lemma hexVal_lowerHexDigit : ∀ k, k < 16 → hexVal (lowerHexDigit k) = some k := by
  decide

lemma hex4_00 (a b : Nat) (ha : a < 16) (hb : b < 16) :
    hex4 '0' '0' (lowerHexDigit a) (lowerHexDigit b) = some (a * 16 + b) := by
  have h0 : hexVal '0' = some 0 := by decide
  simp [hex4, h0, hexVal_lowerHexDigit a ha, hexVal_lowerHexDigit b hb]

lemma escapeChar_length_pos (c : Char) : 1 ≤ (escapeChar c).length := by
  unfold escapeChar
  repeat' split
  all_goals simp

lemma escapeList_length (cs : List Char) : cs.length ≤ (escapeList cs).length := by
  induction cs with
  | nil => simp [escapeList]
  | cons c cs ih =>
    have := escapeChar_length_pos c
    simp only [escapeList, List.length_append, List.length_cons]
    omega

lemma parseStringAux_escape (cs : List Char) : ∀ (fuel : Nat) (rest : List Char),
    cs.length < fuel →
    parseStringAux fuel (escapeList cs ++ '"' :: rest) = some (cs, rest) := by
  induction cs with
  | nil =>
    intro fuel rest h
    obtain ⟨f, rfl⟩ : ∃ f, fuel = f + 1 := ⟨fuel - 1, by omega⟩
    simp [escapeList, parseStringAux]
  | cons c cs ih =>
    intro fuel rest h
    obtain ⟨f, rfl⟩ : ∃ f, fuel = f + 1 := ⟨fuel - 1, by omega⟩
    have hf : cs.length < f := by simp at h; omega
    rw [escapeList]
    by_cases h1 : c = '"'
    · subst h1; simp [escapeChar, parseStringAux, parseEscapeChar, ih _ _ hf]
    · by_cases h2 : c = '\\'
      · subst h2; simp [escapeChar, parseStringAux, parseEscapeChar, ih _ _ hf]
      · by_cases h3 : c = '\x08'
        · subst h3; simp [escapeChar, parseStringAux, parseEscapeChar, ih _ _ hf]
        · by_cases h4 : c = '\x0c'
          · subst h4; simp [escapeChar, parseStringAux, parseEscapeChar, ih _ _ hf]
          · by_cases h5 : c = '\n'
            · subst h5; simp [escapeChar, parseStringAux, parseEscapeChar, ih _ _ hf]
            · by_cases h6 : c = '\r'
              · subst h6; simp [escapeChar, parseStringAux, parseEscapeChar, ih _ _ hf]
              · by_cases h7 : c = '\t'
                · subst h7; simp [escapeChar, parseStringAux, parseEscapeChar, ih _ _ hf]
                · by_cases h8 : c.toNat < 32
                  · have hdiv : c.toNat / 16 < 16 := by omega
                    have hmod : c.toNat % 16 < 16 := Nat.mod_lt _ (by norm_num)
                    have hn : c.toNat / 16 * 16 + c.toNat % 16 = c.toNat := by omega
                    simp only [escapeChar, if_neg h1, if_neg h2, if_neg h3, if_neg h4,
                      if_neg h5, if_neg h6, if_neg h7, if_pos h8,
                      List.cons_append, List.nil_append]
                    rw [parseStringAux]
                    simp [parseEscapeChar, parseUnicodeEscape, hex4_00 _ _ hdiv hmod, hn]
                    rw [if_pos (show c.toNat < 55296 by omega)]
                    simp [ih _ _ hf]
                  · simp only [escapeChar, if_neg h1, if_neg h2, if_neg h3, if_neg h4,
                      if_neg h5, if_neg h6, if_neg h7, if_neg h8,
                      List.cons_append, List.nil_append]
                    rw [parseStringAux]
                    simp [h1, h2, h8, ih _ _ hf]

lemma parseStringChars_escape (cs : List Char) (rest : List Char) :
    parseStringChars (escapeList cs ++ '"' :: rest) = some (cs, rest) := by
  have hlen := escapeList_length cs
  apply parseStringAux_escape
  simp only [List.length_append, List.length_cons]
  omega

lemma string_mk_data (s : String) : String.mk s.data = s := rfl

lemma parse_val_null (f : Nat) (rest : List Char) :
    parseJsonVal (f + 1) (renderChars Json.null ++ rest) = some (Json.null, rest) := by
  rw [parseJsonVal]
  simp [renderChars, skipWs, isJsonWs, expect3]

lemma parse_val_str (f : Nat) (s : String) (rest : List Char) :
    parseJsonVal (f + 1) (renderChars (Json.str s) ++ rest) = some (Json.str s, rest) := by
  rw [parseJsonVal]
  simp [renderChars, skipWs, isJsonWs, parseStringChars_escape, string_mk_data]

lemma parse_elems_strs (ss : List String) : ∀ (f : Nat) (rest : List Char), ss ≠ [] →
    ss.length < f →
    parseElems f (renderElems (ss.map Json.str) ++ ']' :: rest) = some (ss.map Json.str, rest) := by
  induction ss with
  | nil => intro f rest hne; exact absurd rfl hne
  | cons s ss ih =>
    intro f rest _ hlen
    obtain ⟨f1, rfl⟩ : ∃ f1, f = f1 + 1 := ⟨f - 1, by omega⟩
    have hf1 : 0 < f1 := by simp at hlen; omega
    obtain ⟨f2, rfl⟩ : ∃ f2, f1 = f2 + 1 := ⟨f1 - 1, by omega⟩
    rw [parseElems]
    cases ss with
    | nil =>
      simp only [List.map_cons, List.map_nil, renderElems, List.append_assoc, List.cons_append]
      rw [parse_val_str]
      simp [skipWs, isJsonWs]
    | cons s2 ss2 =>
      simp only [List.map_cons, renderElems, List.append_assoc, List.cons_append]
      rw [parse_val_str]
      have hne2 : s2 :: ss2 ≠ [] := by simp
      have hlen2 : (s2 :: ss2).length < f2 + 1 := by simp at hlen ⊢; omega
      have := ih (f2 + 1) rest hne2 hlen2
      simp only [List.map_cons] at this
      simp [skipWs, isJsonWs, this]

/-- The value shapes the encoder puts in object fields. -/
inductive FlatJson : Json → Prop
  | null : FlatJson Json.null
  | str (s : String) : FlatJson (Json.str s)
  | strs (ss : List String) : FlatJson (Json.arr (ss.map Json.str))

def flatFuel : Json → Nat
  | .arr xs => xs.length + 2
  | _ => 1

lemma parse_val_flat (j : Json) (hj : FlatJson j) (f : Nat) (rest : List Char)
    (hfuel : flatFuel j ≤ f) :
    parseJsonVal f (renderChars j ++ rest) = some (j, rest) := by
  cases hj with
  | null =>
    obtain ⟨f1, rfl⟩ : ∃ f1, f = f1 + 1 := ⟨f - 1, by simp [flatFuel] at hfuel; omega⟩
    exact parse_val_null f1 rest
  | str s =>
    obtain ⟨f1, rfl⟩ : ∃ f1, f = f1 + 1 := ⟨f - 1, by simp [flatFuel] at hfuel; omega⟩
    exact parse_val_str f1 s rest
  | strs ss =>
    obtain ⟨f1, rfl⟩ : ∃ f1, f = f1 + 1 := ⟨f - 1, by simp [flatFuel] at hfuel; omega⟩
    cases ss with
    | nil =>
      rw [parseJsonVal]
      simp [renderChars, renderElems, skipWs, isJsonWs]
    | cons s ss2 =>
      have hlen : (s :: ss2).length < f1 := by
        simp [flatFuel] at hfuel; simp; omega
      obtain ⟨tl, htl⟩ : ∃ tl, renderElems ((s :: ss2).map Json.str) = '"' :: tl := by
        cases ss2 <;> simp [renderElems, renderChars, List.map_cons]
      rw [parseJsonVal]
      simp only [renderChars, List.cons_append, List.append_assoc]
      rw [htl]
      simp [skipWs, isJsonWs]
      have hconv : '"' :: (tl ++ ']' :: rest) =
          renderElems (List.map Json.str (s :: ss2)) ++ ']' :: rest := by
        rw [htl]; simp
      rw [hconv, parse_elems_strs (s :: ss2) f1 rest (by simp) hlen]
      simp

def fieldsFuel : List (String × Json) → Nat
  | [] => 0
  | kv :: fs => max (flatFuel kv.2) (fieldsFuel fs) + 1

lemma parse_fields_flat (fields : List (String × Json)) :
    ∀ (f : Nat) (rest : List Char), fields ≠ [] → (∀ p ∈ fields, FlatJson p.2) →
    fieldsFuel fields ≤ f →
    parseFields f (renderFields fields ++ '\x7d' :: rest) = some (fields, rest) := by
  induction fields with
  | nil => intro f rest hne; exact absurd rfl hne
  | cons p fs ih =>
    intro f rest _ hflat hfuel
    obtain ⟨k, v⟩ := p
    obtain ⟨f1, rfl⟩ : ∃ f1, f = f1 + 1 := ⟨f - 1, by simp [fieldsFuel] at hfuel; omega⟩
    have hv : FlatJson v := hflat (k, v) (by simp)
    have hvf : flatFuel v ≤ f1 := by simp [fieldsFuel] at hfuel; omega
    rw [parseFields]
    cases fs with
    | nil =>
      simp only [renderFields, List.cons_append, List.append_assoc]
      simp [skipWs, isJsonWs, parseStringChars_escape, string_mk_data,
        parse_val_flat v hv f1 _ hvf]
    | cons p2 fs2 =>
      have hff : fieldsFuel (p2 :: fs2) ≤ f1 := by simp [fieldsFuel] at hfuel ⊢; omega
      have hrec := ih f1 rest (by simp) (fun q hq => hflat q (by simp [hq])) hff
      simp only [renderFields, List.cons_append, List.append_assoc]
      simp [skipWs, isJsonWs, parseStringChars_escape, string_mk_data,
        parse_val_flat v hv f1 _ hvf, hrec]

lemma parse_obj_flat (fields : List (String × Json)) (hne : fields ≠ [])
    (hflat : ∀ p ∈ fields, FlatJson p.2) (f : Nat) (rest : List Char)
    (hfuel : fieldsFuel fields + 1 ≤ f) :
    parseJsonVal f (renderChars (Json.obj fields) ++ rest) = some (Json.obj fields, rest) := by
  obtain ⟨f1, rfl⟩ : ∃ f1, f = f1 + 1 := ⟨f - 1, by omega⟩
  have hfe : fieldsFuel fields ≤ f1 := by omega
  obtain ⟨tl, htl⟩ : ∃ tl, renderFields fields = '"' :: tl := by
    match fields, hne with
    | (k, v) :: fs, _ =>
      cases fs <;> simp [renderFields]
  rw [parseJsonVal]
  simp only [renderChars, List.cons_append, List.append_assoc]
  rw [htl]
  simp [skipWs, isJsonWs]
  have hconv : '"' :: (tl ++ '\x7d' :: rest) =
      renderFields fields ++ '\x7d' :: rest := by
    rw [htl]; simp
  rw [hconv, parse_fields_flat fields f1 rest hne hflat hfe]

lemma renderElems_strs_len (ss : List String) :
    ss.length ≤ (renderElems (ss.map Json.str)).length + 1 := by
  induction ss with
  | nil => simp [renderElems]
  | cons s ss ih =>
    cases ss with
    | nil => simp [renderElems, renderChars]
    | cons s2 ss2 =>
      simp only [List.map_cons, renderElems, List.length_append, List.length_cons] at ih ⊢
      simp [renderChars]
      omega

lemma flatFuel_le_render (j : Json) (hj : FlatJson j) :
    flatFuel j ≤ (renderChars j).length + 1 := by
  cases hj with
  | null => simp [flatFuel, renderChars]
  | str s => simp [flatFuel, renderChars]
  | strs ss =>
    have := renderElems_strs_len ss
    simp only [flatFuel, renderChars, List.length_cons, List.length_append]
    simp
    omega

/-- The three fields of the encoded wire object. -/
def wireFields (m : WebSocketMessage) : List (String × Json) :=
  [("messageType", jsonOfMsgTypes m.message_type),
   ("dataArray",
     match m.data_array with
     | none => Json.null
     | some ss => Json.arr (ss.map Json.str)),
   ("data",
     match m.data with
     | none => Json.null
     | some s => Json.str s)]

lemma jsonOfWire_eq_obj (m : WebSocketMessage) : jsonOfWire m = Json.obj (wireFields m) := rfl

lemma wireFields_flat (m : WebSocketMessage) : ∀ p ∈ wireFields m, FlatJson p.2 := by
  intro p hp
  simp [wireFields] at hp
  rcases hp with h | h | h
  all_goals subst h
  · cases m.message_type <;> exact FlatJson.str _
  · cases m.data_array with
    | none => exact FlatJson.null
    | some ss => exact FlatJson.strs ss
  · cases m.data with
    | none => exact FlatJson.null
    | some s => exact FlatJson.str s

lemma wire_fuel_le (m : WebSocketMessage) :
    fieldsFuel (wireFields m) + 1 ≤ (renderChars (jsonOfWire m)).length + 1 := by
  have hja := flatFuel_le_render _ ((wireFields_flat m) _ (by simp [wireFields] : ("dataArray",
    (match m.data_array with
     | none => Json.null
     | some ss => Json.arr (ss.map Json.str))) ∈ wireFields m))
  simp only [jsonOfWire_eq_obj, wireFields, fieldsFuel, renderChars, renderFields,
    List.length_cons, List.length_append] at hja ⊢
  have h1 : flatFuel (jsonOfMsgTypes m.message_type) = 1 := by
    cases m.message_type <;> simp [jsonOfMsgTypes, flatFuel]
  have h3 : flatFuel (match m.data with
      | none => Json.null
      | some s => Json.str s) = 1 := by
    cases m.data <;> simp [flatFuel]
  rw [h1, h3]
  omega

lemma strsFromJson_map (ss : List String) : strsFromJson (ss.map Json.str) = some ss := by
  induction ss with
  | nil => simp [strsFromJson]
  | cons s ss ih => simp [strsFromJson, ih]

lemma wireFromJson_jsonOfWire (m : WebSocketMessage) :
    wireFromJson (jsonOfWire m) = some m := by
  obtain ⟨mt, da, d⟩ := m
  rw [jsonOfWire_eq_obj, wireFromJson]
  simp only [wireFields, collectWireFields]
  simp only [String.reduceEq, reduceIte]
  have hmt : msgTypesFromJson (jsonOfMsgTypes mt) = some mt := by
    cases mt <;> simp [msgTypesFromJson, jsonOfMsgTypes]
  rw [hmt]
  cases da with
  | none => cases d <;> simp
  | some ss => cases d <;> simp [strsFromJson_map]

/-- Decoding inverts encoding: `serde_json::from_str` applied to
`serde_json::to_string(&m)` returns `m`, for every value of the wire
struct. -/
lemma decode_encode (m : WebSocketMessage) : decodeWire (encodeWire m) = .ok m := by
  have hflat := wireFields_flat m
  have hne : wireFields m ≠ [] := by simp [wireFields]
  have hlen := wire_fuel_le m
  unfold decodeWire encodeWire
  have hdata : (String.mk (renderChars (jsonOfWire m))).data = renderChars (jsonOfWire m) := rfl
  rw [hdata]
  have hparse := parse_obj_flat (wireFields m) hne hflat
    ((renderChars (jsonOfWire m)).length + 1) [] (by simpa using hlen)
  rw [jsonOfWire_eq_obj] at hparse ⊢
  rw [List.append_nil] at hparse
  rw [hparse]
  simp [skipWs, ← jsonOfWire_eq_obj, wireFromJson_jsonOfWire]

/-! ## Frame sequences -/

/-- Apply a list of decoded frames in order; `none` as soon as any
handler panics. -/
def applyFrames (st : SessionState) : List WebSocketMessage → Option SessionState
  | [] => some st
  | f :: fs =>
    match applyFrame st f with
    | none => none
    | some (st2, _) => applyFrames st2 fs

lemma applyFrames_messages (ds : List (Option (List String) × String × MessageData)) :
    ∀ st : SessionState, (∀ p ∈ ds, decodeMessageData p.2.1 = .ok p.2.2) →
    applyFrames st (ds.map fun p => ⟨.Message, p.1, some p.2.1⟩) =
      some { st with messages := st.messages ++ ds.map fun p => p.2.2 } := by
  induction ds with
  | nil => intro st h; simp [applyFrames]
  | cons p ds ih =>
    intro st h
    have hp := h p (by simp)
    have hrest : ∀ q ∈ ds, decodeMessageData q.2.1 = .ok q.2.2 := by
      intro q hq; exact h q (by simp [hq])
    simp [applyFrames, applyFrame, hp, ih _ hrest, List.append_assoc]

end YewChat

deriving instance DecidableEq for Except

namespace YewChat

/-! ## The claims -/

/-- C1: the claim says a malformed inbound text frame fails with a
`ProtocolError` and never crashes the caller, the state staying
unchanged.  The decode itself does fail with an error, but line 96 of the
source calls `.unwrap()` on that result, so the handler panics (modelled
by `none`) instead of dropping the frame: the code contradicts the
documented behaviour. -/
theorem c1_malformed_frame_panics :
    decodeWire "not json" = .error .malformed
    ∧ handleMsg ⟨[], [], "alice", false⟩ "not json" = none := by
  decide

/-- C2: for every value of the wire struct — all three `messageType`
variants, any `dataArray`, any `data` — decoding the encoded text
returns exactly the original value. -/
theorem c2_decode_encode_roundtrip (t : MsgTypes) (da : Option (List String))
    (d : Option String) :
    decodeWire (encodeWire ⟨t, da, d⟩) = .ok ⟨t, da, d⟩ :=
  decode_encode ⟨t, da, d⟩

/-- C3: a decoded `Users` frame replaces the whole roster: the new roster
is exactly one entry per listed name, in list order, with the dicebear
avatar of the name and `online = true`; nothing of the previous roster
remains. -/
theorem c3_users_frame_replaces_roster (st : SessionState) (names : List String)
    (d : Option String) :
    applyFrame st ⟨.Users, some names, d⟩ =
      some ({ st with
        users := names.map fun u =>
          { name := u, avatar := avatarUrl u, online := true } }, true) := rfl

/-- C4: a decoded `Message` frame appends exactly one message, equal to
the decoded payload, to the end of the history, leaving every earlier
element in place; iterating over any list of decodable message frames
grows the history by exactly the list of their payloads, so `N`
successful appends make the history length exactly `N` when it starts
empty. -/
theorem c4_message_frame_appends (st : SessionState) (da : Option (List String))
    (d : String) (md : MessageData) (h : decodeMessageData d = .ok md) :
    applyFrame st ⟨.Message, da, some d⟩ =
      some ({ st with messages := st.messages ++ [md] }, true)
    ∧ (st.messages ++ [md]).length = st.messages.length + 1
    ∧ ∀ (ds : List (Option (List String) × String × MessageData)),
        (∀ p ∈ ds, decodeMessageData p.2.1 = .ok p.2.2) →
        applyFrames { st with messages := [] }
            (ds.map fun p => ⟨.Message, p.1, some p.2.1⟩) =
          some { st with messages := ds.map fun p => p.2.2 }
        ∧ (ds.map fun p => p.2.2).length = ds.length := by
  refine ⟨by simp [applyFrame, h], by simp, fun ds hds => ⟨?_, by simp⟩⟩
  simpa using applyFrames_messages ds { st with messages := [] } hds

/-- Witness for C4 at a concrete frame. -/
theorem c4_message_frame_appends_witness :
    decodeMessageData "\x7b\"from\":\"a\",\"message\":\"hi\",\"timestamp\":100\x7d" =
      .ok ⟨"a", "hi", some 100⟩
    ∧ (applyFrame (⟨[], [], "alice", false⟩ : SessionState)
        ⟨.Message, none,
          some "\x7b\"from\":\"a\",\"message\":\"hi\",\"timestamp\":100\x7d"⟩ =
        some ((⟨[], [⟨"a", "hi", some 100⟩], "alice", false⟩ : SessionState), true)
      ∧ (([] : List MessageData) ++ ([⟨"a", "hi", some 100⟩] : List MessageData)).length = ([] : List MessageData).length + 1
      ∧ ∀ (ds : List (Option (List String) × String × MessageData)),
          (∀ p ∈ ds, decodeMessageData p.2.1 = .ok p.2.2) →
          applyFrames (⟨[], [], "alice", false⟩ : SessionState)
              (ds.map (fun p => ⟨.Message, p.1, some p.2.1⟩)) =
            some (⟨[], ds.map (fun p => p.2.2), "alice", false⟩ : SessionState)
          ∧ (ds.map (fun p => p.2.2)).length = ds.length) :=
  ⟨by decide,
   c4_message_frame_appends ⟨[], [], "alice", false⟩ none _ ⟨"a", "hi", some 100⟩ (by decide)⟩


/-- C5 counterexample: the claim says the outbound body equals the
*trimmed* text.  Submitting `" hello "` produces exactly one frame, but
it decodes to a `Message` whose body is the untrimmed `" hello "`, not
the trimmed `"hello"`: line 144 of the source sends `message_text`
itself, trimming is only used for the emptiness test. -/
theorem c5_counterexample_untrimmed_body :
    rustTrim " hello " = "hello"
    ∧ (submitMessage " hello " true).1.length = 1
    ∧ decodeWire ((submitMessage " hello " true).1.headD "") =
        .ok ⟨.Message, none, some " hello "⟩
    ∧ ¬ decodeWire ((submitMessage " hello " true).1.headD "") =
        .ok ⟨.Message, none, some (rustTrim " hello ")⟩ := by
  decide

/-- C5 as amended: for input that is non-empty after trimming, Submit
hands exactly one frame to the transport, decoding to a `Message` whose
body is the *original* input text (not the trimmed text), and the input
field is cleared afterwards whether or not the send succeeded. -/
theorem c5_amended_submit_nonempty (input : String) (sendOk : Bool)
    (h : ¬ rustTrim input = "") :
    (submitMessage input sendOk).1 = [encodeWire ⟨.Message, none, some input⟩]
    ∧ decodeWire (encodeWire ⟨.Message, none, some input⟩) =
        .ok ⟨.Message, none, some input⟩
    ∧ (submitMessage input sendOk).2 = "" := by
  refine ⟨by simp [submitMessage, h], decode_encode _, by simp [submitMessage, h]⟩

/-- Witness for the amended C5 at input `"hello"`, failed send. -/
theorem c5_amended_submit_nonempty_witness :
    ¬ rustTrim "hello" = ""
    ∧ ((submitMessage "hello" false).1 = [encodeWire ⟨.Message, none, some "hello"⟩]
      ∧ decodeWire (encodeWire ⟨.Message, none, some "hello"⟩) =
          .ok ⟨.Message, none, some "hello"⟩
      ∧ (submitMessage "hello" false).2 = "") :=
  ⟨by decide, c5_amended_submit_nonempty "hello" false (by decide)⟩

/-- C6: input that trims to empty is a no-op: no frame is handed to the
transport and the input field keeps its exact previous contents. -/
theorem c6_submit_whitespace_noop (input : String) (sendOk : Bool)
    (h : rustTrim input = "") :
    submitMessage input sendOk = ([], input) := by
  simp [submitMessage, h]

/-- Witness for C6 at whitespace-only input. -/
theorem c6_submit_whitespace_noop_witness :
    rustTrim "   " = "" ∧ submitMessage "   " true = ([], "   ") :=
  ⟨by decide, c6_submit_whitespace_noop "   " true (by decide)⟩

/-- C7: creation hands exactly one frame to the transport — the register
frame carrying the session's username — and whatever events follow
(inbound frames included), the first frame of the whole session trace is
that register frame, which decodes to `Register` with the username; the
send is attempted without waiting on any acknowledgement, its outcome
`sendOk` not influencing anything. -/
theorem c7_register_first_frame (u : String) (sendOk : Bool) (events : List Event) :
    (createSession u sendOk).2 = [encodeWire ⟨.Register, none, some u⟩]
    ∧ (sessionTrace u sendOk events).2.head? =
        some (encodeWire ⟨.Register, none, some u⟩)
    ∧ decodeWire (encodeWire ⟨.Register, none, some u⟩) =
        .ok ⟨.Register, none, some u⟩ := by
  refine ⟨rfl, ?_, decode_encode _⟩
  simp [sessionTrace, createSession]

/-- C8 counterexample: the claim includes frames with an *unknown*
`messageType` among those silently ignored without error.  But an
unrecognized tag makes `serde_json` decoding fail, and line 96's
`.unwrap()` panics on that failure (modelled by `none`): such a frame
crashes the handler instead of being silently ignored. -/
theorem c8_counterexample_unknown_tag_panics :
    decodeWire "\x7b\"messageType\":\"typing\",\"dataArray\":null,\"data\":null\x7d" =
      .error .schemaViolation
    ∧ handleMsg ⟨[], [], "alice", false⟩
        "\x7b\"messageType\":\"typing\",\"dataArray\":null,\"data\":null\x7d" = none := by
  decide

/-- C8 as amended: restricted to frames that decode successfully, every
tag other than `Users` and `Message` — that is, `Register` — is silently
ignored: the state is unchanged, no panic, and the handler reports no
re-render. -/
theorem c8_amended_register_ignored (st : SessionState) (msg : WebSocketMessage)
    (h1 : ¬ msg.message_type = .Users) (h2 : ¬ msg.message_type = .Message) :
    applyFrame st msg = some (st, false) := by
  obtain ⟨mt, da, d⟩ := msg
  cases mt with
  | Users => exact absurd rfl h1
  | Message => exact absurd rfl h2
  | Register => rfl

/-- Witness for the amended C8 at a decoded `Register` frame. -/
theorem c8_amended_register_ignored_witness :
    ¬ (⟨.Register, none, some "bob"⟩ : WebSocketMessage).message_type = .Users
    ∧ ¬ (⟨.Register, none, some "bob"⟩ : WebSocketMessage).message_type = .Message
    ∧ applyFrame (⟨[], [], "alice", false⟩ : SessionState) ⟨.Register, none, some "bob"⟩ =
        some ((⟨[], [], "alice", false⟩ : SessionState), false) :=
  ⟨by decide, by decide,
   c8_amended_register_ignored ⟨[], [], "alice", false⟩ ⟨.Register, none, some "bob"⟩
     (by decide) (by decide)⟩

/-- C9: a decoded `Users` frame whose `dataArray` is absent (`null`)
replaces the roster with the empty roster — `unwrap_or_default()` on
line 99 turns the missing array into an empty list — rather than failing
or keeping the previous roster. -/
theorem c9_users_null_dataArray_empties_roster (st : SessionState) (d : Option String) :
    applyFrame st ⟨.Users, none, d⟩ = some ({ st with users := [] }, true) := rfl

/-- C10: each handler touches only its own field: a `Message` frame
leaves roster, username and the emoji-picker flag unchanged, and a
`Users` frame leaves history, username and the emoji-picker flag
unchanged. -/
theorem c10_handlers_touch_only_their_field (st st2 : SessionState)
    (msg : WebSocketMessage) (b : Bool) (h : applyFrame st msg = some (st2, b)) :
    (msg.message_type = .Message →
      st2.users = st.users ∧ st2.username = st.username ∧
      st2.show_emoji_picker = st.show_emoji_picker)
    ∧ (msg.message_type = .Users →
      st2.messages = st.messages ∧ st2.username = st.username ∧
      st2.show_emoji_picker = st.show_emoji_picker) := by
  obtain ⟨mt, da, d⟩ := msg
  cases mt with
  | Users =>
    simp only [applyFrame, Option.some.injEq, Prod.mk.injEq] at h
    obtain ⟨h1, -⟩ := h
    subst h1
    exact ⟨fun hc => by simp at hc, fun _ => ⟨rfl, rfl, rfl⟩⟩
  | Message =>
    cases d with
    | none => simp [applyFrame] at h
    | some dd =>
      cases hdec : decodeMessageData dd with
      | error e => simp [applyFrame, hdec] at h
      | ok md =>
        simp only [applyFrame, hdec, Option.some.injEq, Prod.mk.injEq] at h
        obtain ⟨h1, -⟩ := h
        subst h1
        exact ⟨fun _ => ⟨rfl, rfl, rfl⟩, fun hc => by simp at hc⟩
  | Register =>
    simp only [applyFrame, Option.some.injEq, Prod.mk.injEq] at h
    obtain ⟨h1, -⟩ := h
    subst h1
    exact ⟨fun _ => ⟨rfl, rfl, rfl⟩, fun _ => ⟨rfl, rfl, rfl⟩⟩

/-- Witness for C10 at a concrete `Users` frame. -/
theorem c10_handlers_touch_only_their_field_witness :
    ((⟨.Users, some ["a"], none⟩ : WebSocketMessage).message_type = .Message →
      (⟨[⟨"a", avatarUrl "a", true⟩], [], "alice", false⟩ : SessionState).users =
          (⟨[], [], "alice", false⟩ : SessionState).users
        ∧ (⟨[⟨"a", avatarUrl "a", true⟩], [], "alice", false⟩ : SessionState).username =
          (⟨[], [], "alice", false⟩ : SessionState).username
        ∧ (⟨[⟨"a", avatarUrl "a", true⟩], [], "alice", false⟩ : SessionState).show_emoji_picker =
          (⟨[], [], "alice", false⟩ : SessionState).show_emoji_picker)
    ∧ ((⟨.Users, some ["a"], none⟩ : WebSocketMessage).message_type = .Users →
      (⟨[⟨"a", avatarUrl "a", true⟩], [], "alice", false⟩ : SessionState).messages =
          (⟨[], [], "alice", false⟩ : SessionState).messages
        ∧ (⟨[⟨"a", avatarUrl "a", true⟩], [], "alice", false⟩ : SessionState).username =
          (⟨[], [], "alice", false⟩ : SessionState).username
        ∧ (⟨[⟨"a", avatarUrl "a", true⟩], [], "alice", false⟩ : SessionState).show_emoji_picker =
          (⟨[], [], "alice", false⟩ : SessionState).show_emoji_picker) :=
  c10_handlers_touch_only_their_field ⟨[], [], "alice", false⟩
    ⟨[⟨"a", avatarUrl "a", true⟩], [], "alice", false⟩
    ⟨.Users, some ["a"], none⟩ true rfl

end YewChat
